import Mathlib

/-!
Verification of the particle-life simulation core (src/particle-life.js).

The simulation state and configuration are embedded over the rationals.
Numbers that the source stores in JavaScript floats are modelled as exact
rationals; `Math.random()` and the trigonometric samples used by
`spawnParticles` are modelled as oracle streams passed in as parameters.
The per-pair distance `dist = Math.sqrt(dx*dx + dy*dy)` is irrational in
general, so the force-law definitions take `dist` as an argument and the
theorems that speak about a distance constrain it by `dist ^ 2 = dx ^ 2 + dy ^ 2`
or quantify over it directly, exactly as the specification does.
-/

namespace ParticleLife

/-- Global configuration and canvas dimensions: the fields of `CONFIG`
relevant to the core, plus the module-level `width`, `height` and
`cellSize` variables (source lines 17-44 and 118-126). -/
structure Config where
  particleRadius : ℚ
  maxForce : ℚ
  friction : ℚ
  interactionRadius : ℚ
  wrap : Bool
  speed : ℚ
  width : ℚ
  height : ℚ
  cellSize : ℚ
deriving DecidableEq

/-- A particle: position, velocity and immutable type index
(source lines 132-140; the constructor also stores a color, which is
pure rendering data and is omitted). -/
structure Particle where
  x : ℚ
  y : ℚ
  vx : ℚ
  vy : ℚ
  type : ℕ
deriving DecidableEq

instance : Inhabited Particle := ⟨⟨0, 0, 0, 0, 0⟩⟩

/-- Grid cell of a particle: `floor(x / cellSize), floor(y / cellSize)`
(source lines 188-189 and 201-202). -/
def cellOf (env : Config) (p : Particle) : ℤ × ℤ :=
  (⌊p.x / env.cellSize⌋, ⌊p.y / env.cellSize⌋)

/-- The spatial hash built by `buildSpatialHash` (source lines 183-197),
viewed as the map from a cell key to the list of particle indices whose
position falls in that cell, in increasing index order. -/
def buildSpatialHash (env : Config) (ps : List Particle) (c : ℤ × ℤ) : List ℕ :=
  (List.range ps.length).filter (fun i => decide (cellOf env (ps.getD i default) = c))

/-- The sequential wrap-mode folding of a neighbor cell coordinate
(source lines 214-217): add the extent once if negative, then subtract
it once if at or above the extent. -/
def foldCell (maxC : ℤ) (n : ℤ) : ℤ :=
  let n1 := if n < 0 then n + maxC else n
  if maxC ≤ n1 then n1 - maxC else n1

/-- `getNeighbors` (source lines 199-228): concatenation of the hash
entries of the 3x3 block of cells around the cell of the particle, the outer
loop over dx and the inner loop over dy; under wrap mode each cell
coordinate is folded modulo `ceil(extent / cellSize)`. -/
def getNeighbors (env : Config) (ps : List Particle) (p : Particle) : List ℕ :=
  let cellX := ⌊p.x / env.cellSize⌋
  let cellY := ⌊p.y / env.cellSize⌋
  (([-1, 0, 1] : List ℤ).flatMap fun dx =>
    (([-1, 0, 1] : List ℤ).flatMap fun dy =>
      let nx0 := cellX + dx
      let ny0 := cellY + dy
      let nx := if env.wrap then foldCell ⌈env.width / env.cellSize⌉ nx0 else nx0
      let ny := if env.wrap then foldCell ⌈env.height / env.cellSize⌉ ny0 else ny0
      buildSpatialHash env ps (nx, ny)))

/-- The repulsion-zone radius `minDist = CONFIG.particleRadius * 4`
(source line 270). -/
def minDist (env : Config) : ℚ :=
  env.particleRadius * 4

/-- The scalar force of one pair at separation `dist` given the matrix
strength for the ordered type pair (source lines 269-279): pure repulsion
below `minDist`, matrix-scaled linear falloff from `minDist` to the
interaction radius. -/
def pairForce (env : Config) (strength dist : ℚ) : ℚ :=
  if dist < minDist env then
    (dist / minDist env - 1) * env.maxForce
  else
    strength * (1 - (dist - minDist env) / (env.interactionRadius - minDist env)) * env.maxForce

/-- The force-vector contribution of one neighbor pair (source lines
260-284): zero unless `0 < dist < interactionRadius`, otherwise the unit
separation vector times `pairForce`.  `dx`, `dy` are the (possibly
wrap-folded) separation components and `dist` the Euclidean length the
source obtains by `Math.sqrt`. -/
def pairContrib (env : Config) (strength dx dy dist : ℚ) : ℚ × ℚ :=
  if dist < env.interactionRadius ∧ 0 < dist then
    (dx / dist * pairForce env strength dist, dy / dist * pairForce env strength dist)
  else
    (0, 0)

/-- End of `applyForces` for one particle (source lines 287-289): the
accumulated force is added to the velocity. -/
def addForce (p : Particle) (fx fy : ℚ) : Particle :=
  { p with vx := p.vx + fx, vy := p.vy + fy }

/-- The integration part of `Particle.update` before boundary handling
(source lines 142-149): position advances by the current velocity scaled
by `dt` and the speed multiplier, then the velocity is damped by
`1 - friction * dt`. -/
def integrate (env : Config) (dt : ℚ) (p : Particle) : Particle :=
  { p with
    x := p.x + p.vx * dt * env.speed
    y := p.y + p.vy * dt * env.speed
    vx := p.vx * (1 - env.friction * dt)
    vy := p.vy * (1 - env.friction * dt) }

/-- Wrap-mode boundary correction of one axis (source lines 154-157):
add the extent once if negative, then subtract it once if at or above
the extent. -/
def wrapAxis (extent x : ℚ) : ℚ :=
  let x1 := if x < 0 then x + extent else x
  if extent ≤ x1 then x1 - extent else x1

/-- Bounce-mode boundary handling of one axis (source lines 160-167):
if the position is outside `[0, extent)`, scale the velocity component
by `-0.8` and clamp the position to `max(0, min(extent - 1, x))`;
returns (position, velocity). -/
def bounceAxis (extent x v : ℚ) : ℚ × ℚ :=
  if x < 0 ∨ extent ≤ x then
    (max 0 (min (extent - 1) x), v * (-0.8))
  else
    (x, v)

/-- Boundary handling of `Particle.update` (source lines 151-168). -/
def applyBoundary (env : Config) (p : Particle) : Particle :=
  if env.wrap then
    { p with x := wrapAxis env.width p.x, y := wrapAxis env.height p.y }
  else
    { p with
      x := (bounceAxis env.width p.x p.vx).1
      vx := (bounceAxis env.width p.x p.vx).2
      y := (bounceAxis env.height p.y p.vy).1
      vy := (bounceAxis env.height p.y p.vy).2 }

/-- `Particle.update` (source lines 142-169): integration followed by
boundary handling. -/
def Particle.update (env : Config) (dt : ℚ) (p : Particle) : Particle :=
  applyBoundary env (integrate env dt p)

/-- The per-axis toroidal shortest displacement magnitude used to state
the neighbor superset property: the smaller of the direct and the
across-the-boundary separation. -/
def torAxis (extent d : ℚ) : ℚ :=
  min |d| (extent - |d|)

/-- Squared true distance between two particles in the sense of the
superset property of the specification: toroidal shortest distance under
wrap mode, plain Euclidean distance under bounce mode. -/
def trueDistSq (env : Config) (p q : Particle) : ℚ :=
  if env.wrap then
    torAxis env.width (q.x - p.x) ^ 2 + torAxis env.height (q.y - p.y) ^ 2
  else
    (q.x - p.x) ^ 2 + (q.y - p.y) ^ 2

/-- `generateRandomRules` (source lines 297-310): a `numTypes` by
`numTypes` table with entry `(i, j)` equal to `rand i j * 2 - 1`, where
`rand i j` is the `Math.random()` sample drawn for that cell. -/
def generateRandomRules (numTypes : ℕ) (rand : ℕ → ℕ → ℚ) : List (List ℚ) :=
  (List.range numTypes).map fun i =>
    (List.range numTypes).map fun j => rand i j * 2 - 1

/-- The clamp applied to a manually edited matrix cell by
`applyMatrixFromUI` (source line 470): `Math.max(-1, Math.min(1, v))`. -/
def clampCell (v : ℚ) : ℚ :=
  max (-1) (min 1 v)

/-- One cell edit of `applyMatrixFromUI` (source lines 465-472): store
the clamped value at row `i`, column `j`. -/
def setCell (m : List (List ℚ)) (i j : ℕ) (v : ℚ) : List (List ℚ) :=
  m.set i ((m.getD i []).set j (clampCell v))

/-- The `cells` preset matrix (source lines 53-63). -/
def cellsMatrix : List (List ℚ) :=
  [[0.8, -0.2, -0.2, -0.2, -0.2, -0.2],
   [-0.2, 0.8, -0.2, -0.2, -0.2, -0.2],
   [-0.2, -0.2, 0.8, -0.2, -0.2, -0.2],
   [-0.2, -0.2, -0.2, 0.8, -0.2, -0.2],
   [-0.2, -0.2, -0.2, -0.2, 0.8, -0.2],
   [-0.2, -0.2, -0.2, -0.2, -0.2, 0.8]]

/-- The `swarm` preset matrix (source lines 65-75). -/
def swarmMatrix : List (List ℚ) :=
  [[0.1, -0.5, 0.5, 0.3, 0.3, 0.3],
   [0.8, 0.1, -0.1, -0.1, -0.1, -0.1],
   [0.3, 0.6, 0.1, -0.1, -0.1, -0.1],
   [0.3, 0.6, -0.1, 0.1, -0.1, -0.1],
   [0.3, 0.6, -0.1, -0.1, 0.1, -0.1],
   [0.3, 0.6, -0.1, -0.1, -0.1, 0.1]]

/-- The `predator` preset matrix (source lines 77-87). -/
def predatorMatrix : List (List ℚ) :=
  [[0.1, 0.8, -0.5, 0, 0, 0],
   [-0.8, 0.1, 0.8, 0, 0, 0],
   [0.8, -0.8, 0.1, 0, 0, 0],
   [0, 0, 0, 0.5, -0.3, -0.3],
   [0, 0, 0, -0.3, 0.5, -0.3],
   [0, 0, 0, -0.3, -0.3, 0.5]]

/-- The `symbiosis` preset matrix (source lines 89-99). -/
def symbiosisMatrix : List (List ℚ) :=
  [[0.2, 0.7, -0.3, -0.3, 0, 0],
   [0.7, 0.2, -0.3, -0.3, 0, 0],
   [-0.3, -0.3, 0.2, 0.7, 0, 0],
   [-0.3, -0.3, 0.7, 0.2, 0, 0],
   [0, 0, 0, 0, 0.2, 0.7],
   [0, 0, 0, 0, 0.7, 0.2]]

/-- The `chains` preset matrix (source lines 101-111). -/
def chainsMatrix : List (List ℚ) :=
  [[0.3, 0.5, -0.3, -0.3, -0.3, -0.3],
   [-0.5, 0.3, 0.5, -0.3, -0.3, -0.3],
   [-0.3, -0.5, 0.3, 0.5, -0.3, -0.3],
   [-0.3, -0.3, -0.5, 0.3, 0.5, -0.3],
   [-0.3, -0.3, -0.3, -0.5, 0.3, 0.5],
   [0.5, -0.3, -0.3, -0.3, -0.5, 0.3]]

/-- The names present in the `PRESETS` table (source lines 50-112). -/
def knownPresets : List String :=
  ["random", "cells", "swarm", "predator", "symbiosis", "chains"]

/-- `setPreset` (source lines 483-491): look the name up in `PRESETS`
and call the stored generator.  A lookup miss makes the call fail, which
the embedding renders as `none`; the `random` entry calls
`generateRandomRules` with the 6 types of `CONFIG.colors` and the
supplied random stream. -/
def setPreset (rand : ℕ → ℕ → ℚ) (name : String) : Option (List (List ℚ)) :=
  if name = "random" then some (generateRandomRules 6 rand)
  else if name = "cells" then some cellsMatrix
  else if name = "swarm" then some swarmMatrix
  else if name = "predator" then some predatorMatrix
  else if name = "symbiosis" then some symbiosisMatrix
  else if name = "chains" then some chainsMatrix
  else none

/-- `createParticles` (source lines 316-326): `count` fresh particles at
oracle-supplied random positions, type `floor(rand * numTypes)`, built
by the constructor and hence with zero velocity. -/
def createParticles (count numTypes : ℕ) (randT randX randY : ℕ → ℚ) : List Particle :=
  (List.range count).map fun i =>
    { x := randX i, y := randY i, vx := 0, vy := 0, type := (⌊randT i * numTypes⌋).toNat }

/-- `spawnParticles` (source lines 328-341): append `count` fresh
particles around `(x, y)`; `cosA i` and `sinA i` are oracle samples of
`Math.cos(angle)` and `Math.sin(angle)` (transcendental in the source)
and `rad i` of the random radius. -/
def spawnParticles (old : List Particle) (x y : ℚ) (count numTypes : ℕ)
    (randT cosA sinA rad : ℕ → ℚ) : List Particle :=
  old ++ ((List.range count).map fun i =>
    { x := x + cosA i * rad i, y := y + sinA i * rad i, vx := 0, vy := 0,
      type := (⌊randT i * numTypes⌋).toNat })

/-- The reference configuration of `CONFIG` (particle radius 2.5, max
force 1, friction 0.5, interaction radius 80, speed 1) in wrap mode on a
350 by 350 canvas, whose extent is not a multiple of the cell size. -/
def envNonMultiple : Config :=
  ⟨5/2, 1, 1/2, 80, true, 1, 350, 350, 80⟩

/-- Two type-0 particles on the 350-wide canvas: one at (5, 5), one at
(290, 5); their toroidal distance is 65, inside the interaction radius. -/
def psNonMultiple : List Particle :=
  [⟨5, 5, 0, 0, 0⟩, ⟨290, 5, 0, 0, 0⟩]

/-- The reference configuration in wrap mode on a 320 by 320 canvas,
whose extent is exactly 4 cells of size 80. -/
def envMultiple : Config :=
  ⟨5/2, 1, 1/2, 80, true, 1, 320, 320, 80⟩

/-- Two type-0 particles on the 320-wide canvas at (5, 5) and (300, 5);
their toroidal distance is 25. -/
def psMultiple : List Particle :=
  [⟨5, 5, 0, 0, 0⟩, ⟨300, 5, 0, 0, 0⟩]

/-- The reference configuration in bounce mode on a 320 by 320 canvas. -/
def envBounce : Config :=
  ⟨5/2, 1, 1/2, 80, false, 1, 320, 320, 80⟩

/-- Helper: two positions less than one cell size apart have grid cells
at most one apart. -/
theorem floor_cell_dist (cs a b : ℚ) (hcs : 0 < cs) (h : |a - b| < cs) :
    ⌊b / cs⌋ - 1 ≤ ⌊a / cs⌋ ∧ ⌊a / cs⌋ ≤ ⌊b / cs⌋ + 1 := by
  rw [abs_lt] at h
  have hq1 : a / cs < b / cs + 1 := by
    have h1 : a < b + cs := by linarith
    have h2 := (div_lt_div_iff_of_pos_right hcs).mpr h1
    rwa [add_div, div_self hcs.ne'] at h2
  have hq2 : b / cs < a / cs + 1 := by
    have h1 : b < a + cs := by linarith
    have h2 := (div_lt_div_iff_of_pos_right hcs).mpr h1
    rwa [add_div, div_self hcs.ne'] at h2
  constructor
  · have h3 : ⌊b / cs⌋ < ⌊a / cs⌋ + 2 := by
      apply Int.floor_lt.mpr
      push_cast
      have h4 := Int.lt_floor_add_one (a / cs)
      linarith
    omega
  · have h3 : ⌊a / cs⌋ < ⌊b / cs⌋ + 2 := by
      apply Int.floor_lt.mpr
      push_cast
      have h4 := Int.lt_floor_add_one (b / cs)
      linarith
    omega

/-- Helper: a position inside `[0, k * cellSize)` lies in a grid cell
with index in `[0, k)`. -/
theorem cell_in_range (cs x : ℚ) (k : ℤ) (hcs : 0 < cs) (h0 : 0 ≤ x) (h1 : x < k * cs) :
    0 ≤ ⌊x / cs⌋ ∧ ⌊x / cs⌋ < k := by
  refine ⟨Int.floor_nonneg.mpr (div_nonneg h0 hcs.le), Int.floor_lt.mpr ?_⟩
  rw [div_lt_iff₀ hcs]
  linarith [h1]

/-- Helper: when the extent is exactly `k` cells, the grid is
`ceil(extent / cellSize) = k` cells wide. -/
theorem ceil_cells_of_multiple (cs : ℚ) (k : ℤ) (hcs : cs ≠ 0) :
    ⌈(k * cs) / cs⌉ = k := by
  rw [mul_div_cancel_right₀ _ hcs, Int.ceil_intCast]

/-- Helper: on an axis whose extent is an integer multiple `k` of the
cell size, any two in-domain positions whose toroidal separation is
below the cell size live in cells that the single-fold correction maps
one to the other with an offset in `[-1, 1]`. -/
theorem wrap_axis_cover (cs : ℚ) (k : ℤ) (xp xq : ℚ) (hcs : 0 < cs) (hk : 1 ≤ k)
    (hp0 : 0 ≤ xp) (hp1 : xp < k * cs) (hq0 : 0 ≤ xq) (hq1 : xq < k * cs)
    (hd : min |xq - xp| (k * cs - |xq - xp|) < cs) :
    ∃ d : ℤ, -1 ≤ d ∧ d ≤ 1 ∧ foldCell k (⌊xp / cs⌋ + d) = ⌊xq / cs⌋ := by
  obtain ⟨hcp0, hcp1⟩ := cell_in_range cs xp k hcs hp0 hp1
  obtain ⟨hcq0, hcq1⟩ := cell_in_range cs xq k hcs hq0 hq1
  rcases min_lt_iff.mp hd with h | h
  · obtain ⟨ha, hb⟩ := floor_cell_dist cs xq xp hcs h
    refine ⟨⌊xq / cs⌋ - ⌊xp / cs⌋, by omega, by omega, ?_⟩
    have hi : ⌊xp / cs⌋ + (⌊xq / cs⌋ - ⌊xp / cs⌋) = ⌊xq / cs⌋ := by ring
    rw [hi, foldCell]
    split_ifs <;> omega
  · rcases le_or_lt xp xq with hle | hlt
    · have habs : |xq - xp| = xq - xp := abs_of_nonneg (by linarith)
      rw [habs] at h
      have h2 : |xq - k * cs - xp| < cs := by
        rw [abs_of_nonpos (by linarith)]
        linarith
      obtain ⟨ha, hb⟩ := floor_cell_dist cs (xq - k * cs) xp hcs h2
      have hfl : ⌊(xq - k * cs) / cs⌋ = ⌊xq / cs⌋ - k := by
        rw [sub_div, mul_div_cancel_right₀ _ hcs.ne', Int.floor_sub_int]
      rw [hfl] at ha hb
      refine ⟨⌊xq / cs⌋ - k - ⌊xp / cs⌋, by omega, by omega, ?_⟩
      have hi : ⌊xp / cs⌋ + (⌊xq / cs⌋ - k - ⌊xp / cs⌋) = ⌊xq / cs⌋ - k := by ring
      rw [hi, foldCell]
      split_ifs <;> omega
    · have habs : |xq - xp| = -(xq - xp) := abs_of_nonpos (by linarith)
      rw [habs] at h
      have h2 : |xq + k * cs - xp| < cs := by
        rw [abs_of_nonneg (by linarith)]
        linarith
      obtain ⟨ha, hb⟩ := floor_cell_dist cs (xq + k * cs) xp hcs h2
      have hfl : ⌊(xq + k * cs) / cs⌋ = ⌊xq / cs⌋ + k := by
        rw [add_div, mul_div_cancel_right₀ _ hcs.ne', Int.floor_add_int]
      rw [hfl] at ha hb
      refine ⟨⌊xq / cs⌋ + k - ⌊xp / cs⌋, by omega, by omega, ?_⟩
      have hi : ⌊xp / cs⌋ + (⌊xq / cs⌋ + k - ⌊xp / cs⌋) = ⌊xq / cs⌋ + k := by ring
      rw [hi, foldCell]
      split_ifs <;> omega

/-- Helper: membership in one cell list of the spatial hash is exactly
being a valid index whose particle lies in that cell. -/
theorem mem_buildSpatialHash (env : Config) (ps : List Particle) (c : ℤ × ℤ) (j : ℕ) :
    j ∈ buildSpatialHash env ps c ↔ j < ps.length ∧ cellOf env (ps.getD j default) = c := by
  simp [buildSpatialHash, List.mem_filter, List.mem_range]

/-- Helper: an absolute-value bound follows from the corresponding bound
on squares against a positive bound. -/
theorem abs_lt_of_sq_lt_sq (a r : ℚ) (hr : 0 < r) (h : a ^ 2 < r ^ 2) : |a| < r := by
  by_contra hc
  push_neg at hc
  have h1 : r * r ≤ |a| * |a| := mul_self_le_mul_self hr.le hc
  have h2 : |a| * |a| = a ^ 2 := by rw [← sq_abs a]; ring
  nlinarith

/-- C1 (amended): in bounce mode unconditionally, and in wrap mode
whenever each extent is an integer multiple of the cell size and all
particles lie inside the domain, every other particle within true
distance (toroidal under wrap, Euclidean under bounce) strictly less
than the interaction radius appears in the candidate list returned by
`getNeighbors`, the cell size being equal to the interaction radius. -/
theorem neighbor_candidates_superset (env : Config) (ps : List Particle) (i j : ℕ)
    (hi : i < ps.length) (hj : j < ps.length) (hij : j ≠ i)
    (hcell : env.cellSize = env.interactionRadius) (hR : 0 < env.interactionRadius)
    (hwrap : env.wrap = true →
      (∃ kx : ℤ, 1 ≤ kx ∧ env.width = kx * env.cellSize) ∧
      (∃ ky : ℤ, 1 ≤ ky ∧ env.height = ky * env.cellSize) ∧
      ∀ p ∈ ps, 0 ≤ p.x ∧ p.x < env.width ∧ 0 ≤ p.y ∧ p.y < env.height)
    (hdist : trueDistSq env (ps.getD i default) (ps.getD j default) <
      env.interactionRadius ^ 2) :
    j ∈ getNeighbors env ps (ps.getD i default) := by
  set P := ps.getD i default with hP
  set Q := ps.getD j default with hQ
  have hcs : 0 < env.cellSize := by rw [hcell]; exact hR
  cases hw : env.wrap with
  | false =>
    simp only [trueDistSq, hw, Bool.false_eq_true, if_false] at hdist
    have hdx : |Q.x - P.x| < env.cellSize := by
      rw [hcell]
      exact abs_lt_of_sq_lt_sq _ _ hR (by nlinarith [sq_nonneg (Q.y - P.y)])
    have hdy : |Q.y - P.y| < env.cellSize := by
      rw [hcell]
      exact abs_lt_of_sq_lt_sq _ _ hR (by nlinarith [sq_nonneg (Q.x - P.x)])
    obtain ⟨hax, hbx⟩ := floor_cell_dist env.cellSize Q.x P.x hcs hdx
    obtain ⟨hay, hby⟩ := floor_cell_dist env.cellSize Q.y P.y hcs hdy
    simp only [getNeighbors, hw, Bool.false_eq_true, if_false, List.mem_flatMap]
    refine ⟨⌊Q.x / env.cellSize⌋ - ⌊P.x / env.cellSize⌋, ?_,
      ⌊Q.y / env.cellSize⌋ - ⌊P.y / env.cellSize⌋, ?_, ?_⟩
    · have hd3 : ⌊Q.x / env.cellSize⌋ - ⌊P.x / env.cellSize⌋ = -1 ∨
          ⌊Q.x / env.cellSize⌋ - ⌊P.x / env.cellSize⌋ = 0 ∨
          ⌊Q.x / env.cellSize⌋ - ⌊P.x / env.cellSize⌋ = 1 := by omega
      rcases hd3 with h3 | h3 | h3 <;> rw [h3] <;> simp
    · have hd3 : ⌊Q.y / env.cellSize⌋ - ⌊P.y / env.cellSize⌋ = -1 ∨
          ⌊Q.y / env.cellSize⌋ - ⌊P.y / env.cellSize⌋ = 0 ∨
          ⌊Q.y / env.cellSize⌋ - ⌊P.y / env.cellSize⌋ = 1 := by omega
      rcases hd3 with h3 | h3 | h3 <;> rw [h3] <;> simp
    · refine (mem_buildSpatialHash env ps _ j).mpr ⟨hj, ?_⟩
      rw [← hQ, cellOf, Prod.ext_iff]
      constructor <;> dsimp only <;> ring
  | true =>
    obtain ⟨⟨kx, hkx, hwx⟩, ⟨ky, hky, hwy⟩, hdom⟩ := hwrap hw
    have hPmem : P ∈ ps := by
      rw [hP, List.getD_eq_getElem _ _ hi]
      exact List.getElem_mem hi
    have hQmem : Q ∈ ps := by
      rw [hQ, List.getD_eq_getElem _ _ hj]
      exact List.getElem_mem hj
    obtain ⟨hPx0, hPx1, hPy0, hPy1⟩ := hdom P hPmem
    obtain ⟨hQx0, hQx1, hQy0, hQy1⟩ := hdom Q hQmem
    simp only [trueDistSq, hw, if_true] at hdist
    have habsx : |Q.x - P.x| < env.width := by
      rw [abs_sub_lt_iff]
      constructor <;> linarith
    have habsy : |Q.y - P.y| < env.height := by
      rw [abs_sub_lt_iff]
      constructor <;> linarith
    have ht0x : 0 ≤ torAxis env.width (Q.x - P.x) :=
      le_min (abs_nonneg _) (by linarith)
    have ht0y : 0 ≤ torAxis env.height (Q.y - P.y) :=
      le_min (abs_nonneg _) (by linarith)
    have htx : torAxis env.width (Q.x - P.x) < env.cellSize := by
      rw [hcell]
      have h1 : torAxis env.width (Q.x - P.x) ^ 2 < env.interactionRadius ^ 2 := by
        nlinarith [sq_nonneg (torAxis env.height (Q.y - P.y))]
      have h2 := abs_lt_of_sq_lt_sq _ _ hR h1
      rwa [abs_of_nonneg ht0x] at h2
    have hty : torAxis env.height (Q.y - P.y) < env.cellSize := by
      rw [hcell]
      have h1 : torAxis env.height (Q.y - P.y) ^ 2 < env.interactionRadius ^ 2 := by
        nlinarith [sq_nonneg (torAxis env.width (Q.x - P.x))]
      have h2 := abs_lt_of_sq_lt_sq _ _ hR h1
      rwa [abs_of_nonneg ht0y] at h2
    rw [torAxis, hwx] at htx
    rw [torAxis, hwy] at hty
    obtain ⟨dx, hdx1, hdx2, hdxf⟩ :=
      wrap_axis_cover env.cellSize kx P.x Q.x hcs hkx hPx0 (hwx ▸ hPx1) hQx0 (hwx ▸ hQx1) htx
    obtain ⟨dy, hdy1, hdy2, hdyf⟩ :=
      wrap_axis_cover env.cellSize ky P.y Q.y hcs hky hPy0 (hwy ▸ hPy1) hQy0 (hwy ▸ hQy1) hty
    have hcx : ⌈env.width / env.cellSize⌉ = kx := by
      rw [hwx]
      exact ceil_cells_of_multiple _ _ hcs.ne'
    have hcy : ⌈env.height / env.cellSize⌉ = ky := by
      rw [hwy]
      exact ceil_cells_of_multiple _ _ hcs.ne'
    simp only [getNeighbors, hw, if_true, List.mem_flatMap, hcx, hcy]
    refine ⟨dx, ?_, dy, ?_, ?_⟩
    · have hd3 : dx = -1 ∨ dx = 0 ∨ dx = 1 := by omega
      rcases hd3 with rfl | rfl | rfl <;> simp
    · have hd3 : dy = -1 ∨ dy = 0 ∨ dy = 1 := by omega
      rcases hd3 with rfl | rfl | rfl <;> simp
    · refine (mem_buildSpatialHash env ps _ j).mpr ⟨hj, ?_⟩
      rw [← hQ, cellOf, Prod.ext_iff]
      exact ⟨hdxf.symm, hdyf.symm⟩

/-- Witness for C1 at a concrete input: on the 320-wide wrap canvas
(4 cells of 80), the particle at (300, 5) is at toroidal distance 25
from the particle at (5, 5) and shows up in its candidate list. -/
theorem neighbor_candidates_superset_witness :
    1 ∈ getNeighbors envMultiple psMultiple (psMultiple.getD 0 default) :=
  neighbor_candidates_superset envMultiple psMultiple 0 1
    (by norm_num [psMultiple]) (by norm_num [psMultiple]) (by norm_num)
    rfl (by norm_num [envMultiple])
    (fun _ => ⟨⟨4, by norm_num, by norm_num [envMultiple]⟩,
      ⟨4, by norm_num, by norm_num [envMultiple]⟩, by
        intro p hp
        simp only [psMultiple, List.mem_cons, List.not_mem_nil, or_false] at hp
        rcases hp with rfl | rfl <;> norm_num [envMultiple]⟩)
    (by norm_num [trueDistSq, torAxis, envMultiple, psMultiple, abs_of_nonneg])

/-- Helper: the grid of the 350-wide canvas is 5 cells wide. -/
theorem ceil_350_over_80 : ⌈(35 : ℚ) / 8⌉ = 5 := by
  rw [Int.ceil_eq_iff]
  norm_num

/-- Counterexample for C1 as stated: on the 350-wide wrap canvas (which
is not a whole number of 80-cells), the in-domain particles at (5, 5)
and (290, 5) are at toroidal distance 65 < 80, yet index 1 is absent
from the candidate list of particle 0. -/
theorem neighbor_superset_counterexample :
    envNonMultiple.wrap = true ∧
    envNonMultiple.cellSize = envNonMultiple.interactionRadius ∧
    (∀ p ∈ psNonMultiple, 0 ≤ p.x ∧ p.x < envNonMultiple.width ∧
      0 ≤ p.y ∧ p.y < envNonMultiple.height) ∧
    trueDistSq envNonMultiple (psNonMultiple.getD 0 default) (psNonMultiple.getD 1 default) <
      envNonMultiple.interactionRadius ^ 2 ∧
    1 ∉ getNeighbors envNonMultiple psNonMultiple (psNonMultiple.getD 0 default) := by
  refine ⟨rfl, rfl, ?_, ?_, ?_⟩
  · intro p hp
    simp only [psNonMultiple, List.mem_cons, List.not_mem_nil, or_false] at hp
    rcases hp with rfl | rfl <;> norm_num [envNonMultiple]
  · norm_num [trueDistSq, torAxis, envNonMultiple, psNonMultiple, abs_of_nonneg]
  · norm_num [getNeighbors, buildSpatialHash, cellOf, foldCell, envNonMultiple, psNonMultiple,
      List.range, List.range.loop, List.filter, List.flatMap, ceil_350_over_80]
    decide

/-- Helper: a single add-or-subtract wrap correction of a position that
started in the domain and moved by less than the extent lands in
`[0, extent)`. -/
theorem wrapAxis_bounds (w x0 d : ℚ) (h0 : 0 ≤ x0) (h1 : x0 < w) (hd : |d| < w) :
    0 ≤ wrapAxis w (x0 + d) ∧ wrapAxis w (x0 + d) < w := by
  rw [abs_lt] at hd
  rw [wrapAxis]
  split_ifs with ha hb hb <;> constructor <;> dsimp only <;> linarith

/-- C2: under wrap mode, a particle whose position before the step is in
`[0, extent)` on both axes and whose per-step displacement is smaller
than the extent on each axis is again in `[0, extent)` on both axes
after `Particle.update`. -/
theorem wrap_conservation (env : Config) (dt : ℚ) (p : Particle)
    (hw : env.wrap = true)
    (hx0 : 0 ≤ p.x) (hx1 : p.x < env.width)
    (hy0 : 0 ≤ p.y) (hy1 : p.y < env.height)
    (hdx : |p.vx * dt * env.speed| < env.width)
    (hdy : |p.vy * dt * env.speed| < env.height) :
    0 ≤ (Particle.update env dt p).x ∧ (Particle.update env dt p).x < env.width ∧
    0 ≤ (Particle.update env dt p).y ∧ (Particle.update env dt p).y < env.height := by
  have hx := wrapAxis_bounds env.width p.x (p.vx * dt * env.speed) hx0 hx1 hdx
  have hy := wrapAxis_bounds env.height p.y (p.vy * dt * env.speed) hy0 hy1 hdy
  simp only [Particle.update, applyBoundary, integrate, hw, if_true]
  exact ⟨hx.1, hx.2, hy.1, hy.2⟩

/-- Witness for C2 at a concrete input: a particle at (300, 100) moving
by (50, -200) on the 320-wide wrap canvas ends up inside the domain. -/
theorem wrap_conservation_witness :
    0 ≤ (Particle.update envMultiple 1 ⟨300, 100, 50, -200, 0⟩).x ∧
    (Particle.update envMultiple 1 ⟨300, 100, 50, -200, 0⟩).x < envMultiple.width ∧
    0 ≤ (Particle.update envMultiple 1 ⟨300, 100, 50, -200, 0⟩).y ∧
    (Particle.update envMultiple 1 ⟨300, 100, 50, -200, 0⟩).y < envMultiple.height :=
  wrap_conservation envMultiple 1 ⟨300, 100, 50, -200, 0⟩ rfl
    (by norm_num) (by norm_num [envMultiple]) (by norm_num) (by norm_num [envMultiple])
    (by norm_num [envMultiple]) (by norm_num [envMultiple])

/-- C3: in the interaction zone the pair force is the matrix strength
times the linear falloff times the maximum force; in the reference
scenario (types 0 and 0, strength 1, distance 50, interaction radius 80,
particle radius 2.5) the contribution on the axis towards the other
particle is `3/7` of the maximum force, directed to decrease the
separation. -/
theorem interaction_zone_force :
    (∀ (env : Config) (strength dist : ℚ),
      minDist env ≤ dist → dist < env.interactionRadius →
      pairForce env strength dist =
        strength * (1 - (dist - minDist env) / (env.interactionRadius - minDist env)) *
          env.maxForce) ∧
    (∀ env : Config, env.particleRadius = 5/2 → env.interactionRadius = 80 →
      pairContrib env 1 50 0 50 = (3/7 * env.maxForce, 0) ∧
      (0 < env.maxForce → 0 < (pairContrib env 1 50 0 50).1)) := by
  constructor
  · intro env s d h1 h2
    rw [pairForce, if_neg (not_lt.mpr h1)]
  · intro env hpr hR
    have hmd : minDist env = 10 := by rw [minDist, hpr]; norm_num
    have hc : pairContrib env 1 50 0 50 = (3/7 * env.maxForce, 0) := by
      rw [pairContrib, if_pos ⟨by rw [hR]; norm_num, by norm_num⟩,
        pairForce, if_neg (by rw [hmd]; norm_num), hmd, hR]
      norm_num
    refine ⟨hc, fun hm => ?_⟩
    rw [hc]
    simp only
    linarith

/-- Witness for C3 at a concrete input: with the reference radii and
maximum force 1, the general zone formula gives force `3/7` at distance
50, and the scenario contribution is `(3/7, 0)`. -/
theorem interaction_zone_force_witness :
    pairForce envMultiple 1 50 =
      1 * (1 - (50 - minDist envMultiple) /
        (envMultiple.interactionRadius - minDist envMultiple)) * envMultiple.maxForce ∧
    pairContrib envMultiple 1 50 0 50 = (3/7 * envMultiple.maxForce, 0) :=
  ⟨interaction_zone_force.1 envMultiple 1 50 (by norm_num [minDist, envMultiple])
      (by norm_num [envMultiple]),
    (interaction_zone_force.2 envMultiple rfl rfl).1⟩

/-- C4: below `minDist` the pair force is `(dist / minDist - 1) * maxForce`,
it is never positive, and it does not depend on the matrix strength. -/
theorem repulsion_floor (env : Config) (s s' d : ℚ)
    (h0 : 0 < d) (h1 : d < minDist env) (hM : 0 ≤ env.maxForce) :
    pairForce env s d = (d / minDist env - 1) * env.maxForce ∧
    pairForce env s d ≤ 0 ∧
    pairForce env s d = pairForce env s' d := by
  have he : pairForce env s d = (d / minDist env - 1) * env.maxForce := by
    rw [pairForce, if_pos h1]
  have hmd : 0 < minDist env := lt_trans h0 h1
  have hfrac : d / minDist env < 1 := (div_lt_one hmd).mpr h1
  refine ⟨he, ?_, ?_⟩
  · rw [he]
    nlinarith
  · rw [he, pairForce, if_pos h1]

/-- Witness for C4 at a concrete input: two particles at distance 5 with
the reference configuration (minDist 10, maxForce 1) repel with force
`-1/2` whatever the matrix entries 1 and -1 would say. -/
theorem repulsion_floor_witness :
    pairForce envMultiple 1 5 = (5 / minDist envMultiple - 1) * envMultiple.maxForce ∧
    pairForce envMultiple 1 5 ≤ 0 ∧
    pairForce envMultiple 1 5 = pairForce envMultiple (-1) 5 :=
  repulsion_floor envMultiple 1 (-1) 5 (by norm_num)
    (by norm_num [minDist, envMultiple]) (by norm_num [envMultiple])

/-- C5: a pair at exactly zero distance or at or beyond the interaction
radius contributes no force, and any pair either satisfies the guard
`0 < dist < interactionRadius` under which the separation vector is
divided by the distance, or contributes nothing, so that the division is
only ever reached with a strictly positive divisor. -/
theorem no_force_at_zero_or_far (env : Config) (s dx dy d : ℚ) :
    ((d = 0 ∨ env.interactionRadius ≤ d) → pairContrib env s dx dy d = (0, 0)) ∧
    ((d < env.interactionRadius ∧ 0 < d) ∨ pairContrib env s dx dy d = (0, 0)) := by
  constructor
  · intro h
    rw [pairContrib, if_neg]
    rintro ⟨hlt, hpos⟩
    rcases h with h | h
    · exact absurd h (ne_of_gt hpos)
    · exact absurd hlt (not_lt.mpr h)
  · by_cases hg : d < env.interactionRadius ∧ 0 < d
    · exact Or.inl hg
    · exact Or.inr (by rw [pairContrib, if_neg hg])

/-- Witness for C5 at a concrete input: a coincident pair (distance 0)
contributes no force in the reference configuration. -/
theorem no_force_at_zero_or_far_witness :
    pairContrib envMultiple 1 3 4 0 = (0, 0) :=
  (no_force_at_zero_or_far envMultiple 1 3 4 0).1 (Or.inl rfl)

/-- C6: one integration step on the velocity updated by the accumulated
force moves the position with the pre-damping velocity `v0 + f` and only
afterwards damps the velocity by `1 - friction * dt`, and
`Particle.update` is exactly this integration followed by the boundary
step. -/
theorem friction_after_position_update (env : Config) (dt : ℚ) (p : Particle) (fx fy : ℚ) :
    (integrate env dt (addForce p fx fy)).x = p.x + (p.vx + fx) * dt * env.speed ∧
    (integrate env dt (addForce p fx fy)).y = p.y + (p.vy + fy) * dt * env.speed ∧
    (integrate env dt (addForce p fx fy)).vx = (p.vx + fx) * (1 - env.friction * dt) ∧
    (integrate env dt (addForce p fx fy)).vy = (p.vy + fy) * (1 - env.friction * dt) ∧
    Particle.update env dt (addForce p fx fy) =
      applyBoundary env (integrate env dt (addForce p fx fy)) :=
  ⟨rfl, rfl, rfl, rfl, rfl⟩

/-- Helper: the exact effect of the bounce boundary handling on one
axis. -/
theorem bounceAxis_spec (w x v : ℚ) (hw1 : 1 ≤ w) :
    (x < 0 → bounceAxis w x v = (0, v * (-0.8))) ∧
    (w ≤ x → bounceAxis w x v = (w - 1, v * (-0.8))) ∧
    (0 ≤ x → x < w → bounceAxis w x v = (x, v)) := by
  refine ⟨fun h => ?_, fun h => ?_, fun h1 h2 => ?_⟩
  · rw [bounceAxis, if_pos (Or.inl h), min_eq_right (by linarith), max_eq_left (by linarith)]
  · rw [bounceAxis, if_pos (Or.inr h), min_eq_left (by linarith), max_eq_right (by linarith)]
  · rw [bounceAxis, if_neg]
    push_neg
    exact ⟨h1, h2⟩

/-- C7: under bounce mode, an axis whose post-integration position is
outside `[0, extent)` gets its velocity component scaled by `-0.8` and
its position clamped to 0 at the low end and `extent - 1` at the high
end, while an in-range axis is untouched by the boundary step. -/
theorem bounce_boundary (env : Config) (p : Particle)
    (hw : env.wrap = false) (hwd : 1 ≤ env.width) (hht : 1 ≤ env.height) :
    ((p.x < 0 →
        (applyBoundary env p).x = 0 ∧ (applyBoundary env p).vx = p.vx * (-0.8)) ∧
      (env.width ≤ p.x →
        (applyBoundary env p).x = env.width - 1 ∧ (applyBoundary env p).vx = p.vx * (-0.8)) ∧
      (0 ≤ p.x → p.x < env.width →
        (applyBoundary env p).x = p.x ∧ (applyBoundary env p).vx = p.vx)) ∧
    ((p.y < 0 →
        (applyBoundary env p).y = 0 ∧ (applyBoundary env p).vy = p.vy * (-0.8)) ∧
      (env.height ≤ p.y →
        (applyBoundary env p).y = env.height - 1 ∧ (applyBoundary env p).vy = p.vy * (-0.8)) ∧
      (0 ≤ p.y → p.y < env.height →
        (applyBoundary env p).y = p.y ∧ (applyBoundary env p).vy = p.vy)) := by
  obtain ⟨hxlo, hxhi, hxin⟩ := bounceAxis_spec env.width p.x p.vx hwd
  obtain ⟨hylo, hyhi, hyin⟩ := bounceAxis_spec env.height p.y p.vy hht
  simp only [applyBoundary, hw, Bool.false_eq_true, if_false]
  refine ⟨⟨fun h => ?_, fun h => ?_, fun h1 h2 => ?_⟩,
    fun h => ?_, fun h => ?_, fun h1 h2 => ?_⟩ <;>
    simp only [hxlo, hxhi, hxin, hylo, hyhi, hyin, *] <;> simp

/-- Witness for C7 at a concrete input: in bounce mode on the 320-wide
canvas, a particle at (330, -2) with velocity (10, 5) is clamped to
(319, 0) and both velocity components are scaled by -0.8. -/
theorem bounce_boundary_witness :
    ((applyBoundary envBounce ⟨330, -2, 10, 5, 0⟩).x = envBounce.width - 1 ∧
      (applyBoundary envBounce ⟨330, -2, 10, 5, 0⟩).vx = (10 : ℚ) * (-0.8)) ∧
    ((applyBoundary envBounce ⟨330, -2, 10, 5, 0⟩).y = 0 ∧
      (applyBoundary envBounce ⟨330, -2, 10, 5, 0⟩).vy = (5 : ℚ) * (-0.8)) :=
  ⟨(bounce_boundary envBounce ⟨330, -2, 10, 5, 0⟩ rfl (by norm_num [envBounce])
      (by norm_num [envBounce])).1.2.1 (by norm_num [envBounce]),
    (bounce_boundary envBounce ⟨330, -2, 10, 5, 0⟩ rfl (by norm_num [envBounce])
      (by norm_num [envBounce])).2.1 (by norm_num)⟩

/-- C8: random generation yields a square matrix of side `numTypes`
whose entries all lie in `[-1, 1]` whenever the random samples lie in
`[0, 1)`; the manual cell edit stores the supplied value clamped to
`[-1, 1]` (5 stores 1, -5 stores -1) and therefore preserves the bound
on every entry. -/
theorem matrix_always_clamped :
    (∀ (numTypes : ℕ) (rand : ℕ → ℕ → ℚ), (∀ i j, 0 ≤ rand i j ∧ rand i j < 1) →
      (generateRandomRules numTypes rand).length = numTypes ∧
      ∀ row ∈ generateRandomRules numTypes rand,
        row.length = numTypes ∧ ∀ v ∈ row, -1 ≤ v ∧ v ≤ 1) ∧
    (∀ v : ℚ, -1 ≤ clampCell v ∧ clampCell v ≤ 1) ∧
    clampCell 5 = 1 ∧ clampCell (-5) = -1 ∧
    (∀ (m : List (List ℚ)) (i j : ℕ) (v : ℚ), i < m.length → j < (m.getD i []).length →
      ((setCell m i j v).getD i []).getD j 0 = clampCell v) ∧
    (∀ (m : List (List ℚ)) (i j : ℕ) (v : ℚ),
      (∀ row ∈ m, ∀ u ∈ row, -1 ≤ u ∧ u ≤ 1) →
      ∀ row ∈ setCell m i j v, ∀ u ∈ row, -1 ≤ u ∧ u ≤ 1) := by
  have hclamp : ∀ v : ℚ, -1 ≤ clampCell v ∧ clampCell v ≤ 1 := fun v =>
    ⟨le_max_left _ _, max_le (by norm_num) (min_le_left _ _)⟩
  refine ⟨?_, hclamp, ?_, ?_, ?_, ?_⟩
  · intro numTypes rand hr
    refine ⟨by simp [generateRandomRules], ?_⟩
    intro row hrow
    simp only [generateRandomRules, List.mem_map, List.mem_range] at hrow
    obtain ⟨i, hi, rfl⟩ := hrow
    refine ⟨by simp, ?_⟩
    intro v hv
    simp only [List.mem_map, List.mem_range] at hv
    obtain ⟨j, hj, rfl⟩ := hv
    obtain ⟨h0, h1⟩ := hr i j
    constructor <;> linarith
  · rw [clampCell, min_eq_left (by norm_num), max_eq_right (by norm_num)]
  · rw [clampCell, min_eq_right (by norm_num), max_eq_left (by norm_num)]
  · intro m i j v hi hj
    have hrow : (setCell m i j v).getD i [] = (m.getD i []).set j (clampCell v) := by
      rw [setCell, List.getD_eq_getElem _ _ (by simpa using hi), List.getElem_set_self]
    rw [hrow, List.getD_eq_getElem _ _ (by simpa using hj), List.getElem_set_self]
  · intro m i j v hb row hrow u hu
    rcases List.mem_or_eq_of_mem_set hrow with hrm | rfl
    · exact hb row hrm u hu
    · rcases List.mem_or_eq_of_mem_set hu with hum | rfl
      · rcases lt_or_le i m.length with hi | hi
        · rw [List.getD_eq_getElem m [] hi] at hum
          exact hb _ (List.getElem_mem hi) u hum
        · rw [List.getD_eq_default m [] hi] at hum
          exact absurd hum (List.not_mem_nil u)
      · exact hclamp v

/-- Witness for C8 at a concrete input: a constant random stream of 1/2
yields the all-zero 2 by 2 matrix with entries in bounds, and editing a
cell with 5 stores 1. -/
theorem matrix_always_clamped_witness :
    ((generateRandomRules 2 fun _ _ => 1/2).length = 2 ∧
      ∀ row ∈ generateRandomRules 2 fun _ _ => 1/2,
        row.length = 2 ∧ ∀ v ∈ row, -1 ≤ v ∧ v ≤ 1) ∧
    ((setCell [[0, 0], [0, 0]] 0 1 5).getD 0 []).getD 1 0 = clampCell 5 :=
  ⟨matrix_always_clamped.1 2 (fun _ _ => 1/2) (fun _ _ => by norm_num),
    matrix_always_clamped.2.2.2.2.1 [[0, 0], [0, 0]] 0 1 5 (by norm_num) (by norm_num)⟩

/-- Counterexample for C9 as stated: "random" is one of the known preset
identifiers, yet selecting it does not return a fixed constant matrix —
two different random streams give two different matrices. -/
theorem setPreset_random_not_fixed :
    "random" ∈ knownPresets ∧
    ¬ ∀ r r' : ℕ → ℕ → ℚ, setPreset r "random" = setPreset r' "random" := by
  refine ⟨by simp [knownPresets], fun h => ?_⟩
  have h2 := h (fun _ _ => 0) (fun _ _ => 1/2)
  have h3 := congrArg (fun o => ((o.getD []).getD 0 []).getD 0 0) h2
  have hr : List.range 6 = [0, 1, 2, 3, 4, 5] := by decide
  simp only [setPreset, if_pos rfl, generateRandomRules, hr, List.map_cons, List.map_nil,
    Option.getD_some, List.getD_cons_zero] at h3
  norm_num at h3

/-- C9 (amended): an unknown preset name makes the selection fail with
no fallback matrix; each of the five hand-authored preset names returns
its fixed constant matrix; the remaining known name "random" returns the
freshly generated random matrix. -/
theorem setPreset_spec :
    (∀ (r : ℕ → ℕ → ℚ) (name : String), name ∉ knownPresets → setPreset r name = none) ∧
    (∀ r : ℕ → ℕ → ℚ,
      setPreset r "cells" = some cellsMatrix ∧
      setPreset r "swarm" = some swarmMatrix ∧
      setPreset r "predator" = some predatorMatrix ∧
      setPreset r "symbiosis" = some symbiosisMatrix ∧
      setPreset r "chains" = some chainsMatrix) ∧
    (∀ r : ℕ → ℕ → ℚ, setPreset r "random" = some (generateRandomRules 6 r)) := by
  refine ⟨?_, fun r => ⟨rfl, rfl, rfl, rfl, rfl⟩, fun r => rfl⟩
  intro r name hn
  simp only [knownPresets, List.mem_cons, List.not_mem_nil, or_false, not_or] at hn
  obtain ⟨h1, h2, h3, h4, h5, h6⟩ := hn
  simp [setPreset, h1, h2, h3, h4, h5, h6]

/-- Witness for C9 at a concrete input: the unknown name "nebula" fails. -/
theorem setPreset_spec_witness :
    setPreset (fun _ _ => 0) "nebula" = none :=
  setPreset_spec.1 (fun _ _ => 0) "nebula" (by decide)

/-- C10: every particle built by the reset operation and every particle
appended by the spawn operation starts with velocity exactly (0, 0). -/
theorem initial_velocity_zero :
    (∀ (count numTypes : ℕ) (randT randX randY : ℕ → ℚ),
      ∀ p ∈ createParticles count numTypes randT randX randY, p.vx = 0 ∧ p.vy = 0) ∧
    (∀ (old : List Particle) (x y : ℚ) (count numTypes : ℕ) (randT cosA sinA rad : ℕ → ℚ),
      ∀ p ∈ (spawnParticles old x y count numTypes randT cosA sinA rad).drop old.length,
        p.vx = 0 ∧ p.vy = 0) := by
  constructor
  · intro count numTypes randT randX randY p hp
    simp only [createParticles, List.mem_map, List.mem_range] at hp
    obtain ⟨i, _, rfl⟩ := hp
    exact ⟨rfl, rfl⟩
  · intro old x y count numTypes randT cosA sinA rad p hp
    rw [spawnParticles, List.drop_left] at hp
    simp only [List.mem_map, List.mem_range] at hp
    obtain ⟨i, _, rfl⟩ := hp
    exact ⟨rfl, rfl⟩

/-- Witness for C10 at a concrete input: the single particle created by
a reset of count 1, and the single particle spawned around (10, 20),
both have zero velocity. -/
theorem initial_velocity_zero_witness :
    (∀ p ∈ createParticles 1 6 (fun _ => 0) (fun _ => 7) fun _ => 8, p.vx = 0 ∧ p.vy = 0) ∧
    ∀ p ∈ (spawnParticles [] 10 20 1 6 (fun _ => 0) (fun _ => 1) (fun _ => 0)
        fun _ => 5).drop 0,
      p.vx = 0 ∧ p.vy = 0 :=
  ⟨initial_velocity_zero.1 1 6 (fun _ => 0) (fun _ => 7) fun _ => 8,
    initial_velocity_zero.2 [] 10 20 1 6 (fun _ => 0) (fun _ => 1) (fun _ => 0) fun _ => 5⟩

end ParticleLife
